import Mathlib

/-!
# Verification of the transaction resolution and mutation engine

Shallow embedding of the core ledger operations of this repository:

* `createTransactions`, `getTransactionStats`, `getTransactionList`,
  `modifyTransaction`, `bulkDeleteTransactions` (the transaction module),
* `checkBudgetAlert` (the budget module, `src/lib/budget.ts`),
* the earlier two-aggregation `getTransactionStats` (`src/lib/stats.ts`).

The document store is modelled as a list of transaction documents.  JavaScript
`number` amounts are modelled as exact rationals (`ℚ`); dates and timestamps as
integers (milliseconds since the epoch).  A date-string that does not parse
(`new Date(s)` yielding an invalid date) is modelled as `Option.none`.
MongoDB `$group` output order is modelled as first-appearance order of the
grouping key; `$sort` is modelled by a stable insertion sort.
-/

/-- A persisted transaction document (`models/Transaction.ts`).
`date` is the occurrence date; `createdAt` is the creation timestamp added by
mongoose `timestamps: true`; `txId` models the document `_id`. -/
structure Tx where
  userId : String
  type : String
  amount : ℚ
  category : String
  item : String
  date : Int
  createdAt : Int
  txId : Nat
deriving DecidableEq, Repr

/-- The transaction collection, in insertion order. -/
abbrev Store := List Tx

/-- Input candidate for `createTransactions` (`TransactionData` in the source).
`date` holds the parsed occurrence date; `none` models an input whose
`new Date(t.date)` is invalid (`isNaN(dateObj.getTime())`). -/
structure TransactionData where
  item : String
  amount : ℚ
  category : String
  type : String
  date : Option Int
deriving DecidableEq, Repr

/-- JavaScript truthiness of an optional string: `undefined` and `""` are falsy. -/
def truthyS : Option String → Bool
  | some s => s ≠ ""
  | none => false

/-- JavaScript truthiness test `t.item && t.amount && t.category && t.type`
used as the validation filter in `createTransactions` (a number is falsy
exactly when it is `0`). -/
def validTx (t : TransactionData) : Bool :=
  t.item ≠ "" && t.amount ≠ 0 && t.category ≠ "" && t.type ≠ ""

/-- The duplicate probe of `createTransactions`: `Transaction.findOne` on
owner, item, amount, category, type, with the occurrence date in the trailing
window `[now - 5*60*1000, now]`. -/
def isDup (uid : String) (item : String) (amount : ℚ) (category ty : String)
    (now : Int) (s : Store) : Bool :=
  s.any fun d =>
    d.userId == uid && d.item == item && d.amount == amount &&
    d.category == category && d.type == ty &&
    decide (now - 5 * 60 * 1000 ≤ d.date) && decide (d.date ≤ now)

/-- State threaded through the per-candidate loop of `createTransactions`:
the store, the `savedDocs` and `duplicateItems` accumulators (a duplicate is
reported in the source as the string `` `${item} $${amount}` ``, modelled as
the pair), and the next fresh document id. -/
structure CreateState where
  store : Store
  saved : List Tx
  duplicates : List (String × ℚ)
  nextId : Nat
deriving DecidableEq, Repr

/-- The document built and persisted by `Transaction.create(txData)`: the
candidate's fields, the date fallback to `now`, the `createdAt` stamp, and a
fresh id. -/
def mkDoc (uid : String) (t : TransactionData) (now : Int) (nid : Nat) : Tx :=
  ⟨uid, t.type, t.amount, t.category, t.item, t.date.getD now, now, nid⟩

/-- One iteration of the loop body of `createTransactions`: date fallback to
`now`, duplicate probe against the current store, then either report the
duplicate or persist the document (`Transaction.create`, which stamps
`createdAt`). -/
def createStep (uid : String) (now : Int) (st : CreateState) (t : TransactionData) :
    CreateState :=
  if isDup uid t.item t.amount t.category t.type now st.store then
    { st with duplicates := st.duplicates ++ [(t.item, t.amount)] }
  else
    let doc : Tx := mkDoc uid t now st.nextId
    { store := st.store ++ [doc], saved := st.saved ++ [doc],
      duplicates := st.duplicates, nextId := st.nextId + 1 }

/-- `createTransactions(userId, transactions)` from the transaction module:
validation filter, then the per-candidate loop (each accepted candidate is
persisted immediately, so later candidates in the batch are deduplicated
against earlier siblings).  `now` is the wall clock at the call. -/
def createTransactions (uid : String) (txs : List TransactionData) (now : Int)
    (s : Store) (nid : Nat) : CreateState :=
  (txs.filter validTx).foldl (createStep uid now) ⟨s, [], [], nid⟩

/-- Case-insensitive substring test on character lists: does `hay` contain
`pat` as a contiguous run? -/
def hasSubstr (pat : List Char) : List Char → Bool
  | [] => pat.isEmpty
  | c :: t => pat.isPrefixOf (c :: t) || hasSubstr pat t

/-- The `$regex: pattern, $options: 'i'` item probe of `modifyTransaction`,
modelled for metacharacter-free patterns: case-insensitive substring
containment of `pat` in `hay`. -/
def strContainsCI (hay pat : String) : Bool :=
  hasSubstr (pat.toList.map Char.toLower) (hay.toList.map Char.toLower)

/-- `.sort({ createdAt: -1 })`: newest-first by creation timestamp. -/
def sortCreatedDesc (l : List Tx) : List Tx :=
  l.insertionSort fun a b => b.createdAt ≤ a.createdAt

/-- The `targetItem` query of `modifyTransaction`: owner's transactions whose
item label contains the pattern (case-insensitive), newest-first, `.limit(10)`. -/
def itemMatches (uid pat : String) (s : Store) : List Tx :=
  (sortCreatedDesc (s.filter fun tx => tx.userId == uid && strContainsCI tx.item pat)).take 10

/-- The `targetAmount` query of `modifyTransaction`: owner's transactions with
that exact amount, newest-first, `.limit(10)`. -/
def amountMatches (uid : String) (a : ℚ) (s : Store) : List Tx :=
  (sortCreatedDesc (s.filter fun tx => tx.userId == uid && tx.amount == a)).take 10

/-- `ModificationData` from the AI-interface module (the version with
`targetItem`/`targetAmount`).  `action` is `"DELETE"` or `"UPDATE"`. -/
structure ModificationData where
  targetItem : Option String
  targetAmount : Option ℚ
  indexOffset : Option Nat
  action : String
  newItem : Option String
  newAmount : Option ℚ
  newCategory : Option String
deriving DecidableEq, Repr

/-- Outcome of target resolution inside `modifyTransaction` (the
`targetTx` / `candidates` pair of mutable locals in the source). -/
inductive Resolution where
  | noItem (pat : String)
  | noAmount (a : ℚ)
  | noIndex
  | single (tx : Tx)
  | multi (cands : List Tx)
deriving DecidableEq, Repr

/-- The three-priority target resolution of `modifyTransaction`:
`targetItem` (truthy) first, then `targetAmount` (`!== undefined`), then the
`indexOffset` fallback (`(mod.indexOffset || 0) + 1` with a length check,
then `transactions[limit - 1]`).  The dead `.noIndex` arm of the final match
is unreachable: the guard ensures the index is in bounds. -/
def resolveTarget (uid : String) (mod : ModificationData) (s : Store) : Resolution :=
  if truthyS mod.targetItem then
    let pat := mod.targetItem.getD ""
    match itemMatches uid pat s with
    | [] => .noItem pat
    | [tx] => .single tx
    | tx :: tx' :: rest => .multi (tx :: tx' :: rest)
  else if mod.targetAmount.isSome then
    let a := mod.targetAmount.getD 0
    match amountMatches uid a s with
    | [] => .noAmount a
    | [tx] => .single tx
    | tx :: tx' :: rest => .multi (tx :: tx' :: rest)
  else
    let limit := mod.indexOffset.getD 0 + 1
    let txs := (sortCreatedDesc (s.filter fun tx => tx.userId == uid)).take limit
    if txs.length == 0 || txs.length < limit then .noIndex
    else
      match txs[limit - 1]? with
      | some tx => .single tx
      | none => .noIndex

/-- The result value of `modifyTransaction`: one constructor per `return`
statement of the source, carrying the data interpolated into the returned
message (dates are raw; the source renders them with `toLocaleDateString`). -/
inductive ModifyResult where
  | notFoundItem (pat : String)
  | notFoundAmount (a : ℚ)
  | notFoundIndex
  | ambiguous (total : Nat) (shown : List (Int × String × ℚ × String))
  | deleted (date : Int) (item : String) (amount : ℚ) (category : String)
  | updated (date : Int) (item : String) (amount : ℚ) (category : String)
  | unknownAction
deriving DecidableEq, Repr

/-- `modifyTransaction(userId, mod)`.  The store is read once during
resolution and written once during execution; to express the read-then-write
race the source accepts (§5 of the design), the two phases see separate store
snapshots `s₁` (at resolution) and `s₂` (at execution).  For a quiescent store
instantiate `s₁ = s₂`.  Returns the result and the post-execution store.
`findByIdAndDelete` removes the document with the target's id from `s₂`; its
return value is ignored by the source, which builds the confirmation from the
resolved document.  `save` after an UPDATE writes the patched document back by
id. -/
def modifyTransaction (uid : String) (mod : ModificationData) (s₁ s₂ : Store) :
    ModifyResult × Store :=
  match resolveTarget uid mod s₁ with
  | .noItem pat => (.notFoundItem pat, s₂)
  | .noAmount a => (.notFoundAmount a, s₂)
  | .noIndex => (.notFoundIndex, s₂)
  | .multi cands =>
      (.ambiguous cands.length
        ((cands.take 5).map fun t => (t.date, t.item, t.amount, t.category)), s₂)
  | .single tx =>
    if mod.action == "DELETE" then
      (.deleted tx.date tx.item tx.amount tx.category,
       s₂.filter fun d => d.txId != tx.txId)
    else if mod.action == "UPDATE" then
      let tx' : Tx :=
        { tx with
          amount := mod.newAmount.getD tx.amount,
          item := if truthyS mod.newItem then mod.newItem.getD tx.item else tx.item,
          category :=
            if truthyS mod.newCategory then mod.newCategory.getD tx.category
            else tx.category }
      (.updated tx'.date tx'.item tx'.amount tx'.category,
       s₂.map fun d => if d.txId == tx.txId then tx' else d)
    else (.unknownAction, s₂)

/-- `QueryData` from the AI-interface module.  A date field is `none` when the
inbound value is absent or empty (both falsy in the source's guard); a present
value is the parsed timestamp. -/
structure QueryData where
  startDate : Option Int
  endDate : Option Int
  category : Option String
deriving DecidableEq, Repr

/-- `date: { $gte: start, $lte: end }`.  When either bound is missing the
parsed `Date` is invalid and the comparison matches nothing. -/
def dateInRange (q : QueryData) (d : Int) : Bool :=
  match q.startDate, q.endDate with
  | some a, some b => decide (a ≤ d) && decide (d ≤ b)
  | _, _ => false

/-- The `matchStage` of the stats queries: owner, date range, and the optional
category filter (added only when `query.category` is truthy). -/
def matchesQuery (uid : String) (q : QueryData) (tx : Tx) : Bool :=
  tx.userId == uid && dateInRange q tx.date &&
    (if truthyS q.category then tx.category == q.category.getD "" else true)

/-- Distinct grouping keys in first-appearance order, modelling the set of
`_id` values produced by a `$group` stage. -/
def firstKeys : List String → List String
  | [] => []
  | k :: t => k :: firstKeys (t.filter fun x => x != k)
termination_by l => l.length
decreasing_by
  simp only [List.length_cons]
  exact Nat.lt_succ_of_le (List.length_filter_le _ _)

/-- `$group: { _id: '$type', total: { $sum: '$amount' }, count: { $sum: 1 } }`. -/
def groupTypes (l : List Tx) : List (String × ℚ × Nat) :=
  (firstKeys (l.map (·.type))).map fun k =>
    (k, ((l.filter fun tx => tx.type == k).map (·.amount)).sum,
        (l.filter fun tx => tx.type == k).length)

/-- `$group: { _id: '$category', total: { $sum: '$amount' } }`. -/
def groupCats (l : List Tx) : List (String × ℚ) :=
  (firstKeys (l.map (·.category))).map fun k =>
    (k, ((l.filter fun tx => tx.category == k).map (·.amount)).sum)

/-- `$sort: { total: -1 }` on `$group` output. -/
def sortTotalDesc (l : List (String × ℚ)) : List (String × ℚ) :=
  l.insertionSort fun a b => b.2 ≤ a.2

/-- `StatsResult` of the stats queries; `breakdown` entries are
`(_id, total)` pairs. -/
structure StatsResult where
  totalExpense : ℚ
  totalIncome : ℚ
  breakdown : List (String × ℚ)
  transactionCount : Nat
deriving DecidableEq, Repr

/-- `getTransactionStats` from the transaction module: the optimised single
`$facet` pipeline — one `$match`, a `totals` sub-pipeline grouping by type and
a `breakdown` sub-pipeline re-matching `type: 'expense'` and grouping by
category, then the `forEach` readout of the totals. -/
def getTransactionStats (uid : String) (q : QueryData) (s : Store) : StatsResult :=
  let matched := s.filter (matchesQuery uid q)
  let totals := groupTypes matched
  { totalExpense := totals.foldl (fun acc t => if t.1 == "expense" then t.2.1 else acc) 0,
    totalIncome := totals.foldl (fun acc t => if t.1 == "income" then t.2.1 else acc) 0,
    breakdown := sortTotalDesc (groupCats (matched.filter fun tx => tx.type == "expense")),
    transactionCount := totals.foldl (fun acc t => acc + t.2.2) 0 }

/-- The earlier `getTransactionStats` from `src/lib/stats.ts`: two separate
aggregations — one grouping the `matchStage` records by type, one matching
`{ ...matchStage, type: 'expense' }` and grouping by category. -/
def getTransactionStatsTwoStage (uid : String) (q : QueryData) (s : Store) : StatsResult :=
  let totals := groupTypes (s.filter (matchesQuery uid q))
  let breakdownRecs := s.filter fun tx => matchesQuery uid q tx && tx.type == "expense"
  { totalExpense := totals.foldl (fun acc t => if t.1 == "expense" then t.2.1 else acc) 0,
    totalIncome := totals.foldl (fun acc t => if t.1 == "income" then t.2.1 else acc) 0,
    breakdown := sortTotalDesc (groupCats breakdownRecs),
    transactionCount := totals.foldl (fun acc t => acc + t.2.2) 0 }

/-- The result value of `bulkDeleteTransactions`: one constructor per
`return` statement. -/
inductive BulkDeleteResult where
  | missingRange
  | emptyRange
  | deletedCount (n : Nat) (startDate endDate : Int)
deriving DecidableEq, Repr

/-- `bulkDeleteTransactions(userId, query)`: reject a missing/empty boundary
before any store call, otherwise `deleteMany` on owner and inclusive date
range (no category filter), reporting the deleted count (zero by its own
message). -/
def bulkDeleteTransactions (uid : String) (q : QueryData) (s : Store) :
    BulkDeleteResult × Store :=
  if q.startDate.isNone || q.endDate.isNone then (.missingRange, s)
  else
    let a := q.startDate.getD 0
    let b := q.endDate.getD 0
    let matched := s.filter fun tx =>
      tx.userId == uid && decide (a ≤ tx.date) && decide (tx.date ≤ b)
    let s' := s.filter fun tx =>
      !(tx.userId == uid && decide (a ≤ tx.date) && decide (tx.date ≤ b))
    if matched.length == 0 then (.emptyRange, s')
    else (.deletedCount matched.length a b, s')

/-- A budget document (`models/Budget.ts`); `category` may be the sentinel
`"Total"`. -/
structure Budget where
  userId : String
  category : String
  amount : ℚ
deriving DecidableEq, Repr

/-- An alert pushed by `checkBudgetAlert`, carrying the budget's category and
the raw percentage (the source renders it with `Math.round`). -/
inductive Alert where
  | exceeded (category : String) (percentage : ℚ)
  | approaching (category : String) (percentage : ℚ)
deriving DecidableEq, Repr

/-- `Budget.find({ userId, category: { $in: [category, 'Total'] } })`. -/
def fetchedBudgets (uid category : String) (budgets : List Budget) : List Budget :=
  budgets.filter fun b => b.userId == uid && (b.category == category || b.category == "Total")

/-- The current-month expense aggregation of `checkBudgetAlert`: owner's
expense records with `date: { $gte: startOfMonth }` (no upper bound in the
source), grouped by category. -/
def monthStats (uid : String) (txs : Store) (startOfMonth : Int) : List (String × ℚ) :=
  groupCats (txs.filter fun tx =>
    tx.userId == uid && tx.type == "expense" && decide (startOfMonth ≤ tx.date))

/-- The `spent` selection of the alert loop: `totalExpense` for the `"Total"`
budget, the category's group total for the affected category, `0` otherwise. -/
def spentFor (uid category : String) (txs : Store) (startOfMonth : Int) (b : Budget) : ℚ :=
  let stats := monthStats uid txs startOfMonth
  if b.category == "Total" then (stats.map (·.2)).sum
  else if b.category == category then
    (((stats.find? fun e => e.1 == category).map (·.2)).getD 0)
  else 0

/-- The threshold test of the alert loop:
`percentage = spent / limit * 100`; `>= 100` pushes an "exceeded" alert,
`>= 80` an "approaching" alert, otherwise nothing. -/
def alertFor (spent : ℚ) (b : Budget) : Option Alert :=
  let percentage := spent / b.amount * 100
  if 100 ≤ percentage then some (.exceeded b.category percentage)
  else if 80 ≤ percentage then some (.approaching b.category percentage)
  else none

/-- `checkBudgetAlert(userId, category)` from `src/lib/budget.ts`: fetch the
affected category's budget and the `"Total"` budget, return `null` when
neither is set, evaluate each against current-month spend, and return `null`
(never an empty message list) when no alert fires. -/
def checkBudgetAlert (uid category : String) (budgets : List Budget) (txs : Store)
    (startOfMonth : Int) : Option (List Alert) :=
  let bs := fetchedBudgets uid category budgets
  if bs.isEmpty then none
  else
    let alerts := bs.filterMap fun b => alertFor (spentFor uid category txs startOfMonth b) b
    if alerts.isEmpty then none else some alerts

/-! ## Supporting lemmas for `createTransactions` -/

/-- The duplicate probe is false on a store with no record matching the
candidate's key fields at all. -/
theorem isDup_eq_false_of_fresh (uid item : String) (amount : ℚ) (category ty : String)
    (now : Int) (s : Store)
    (h : ∀ d ∈ s, ¬(d.userId = uid ∧ d.item = item ∧ d.amount = amount ∧
        d.category = category ∧ d.type = ty)) :
    isDup uid item amount category ty now s = false := by
  rw [isDup, List.any_eq_false]
  intro d hd
  simp only [Bool.and_eq_true, beq_iff_eq, decide_eq_true_eq]
  intro hp
  obtain ⟨⟨⟨⟨⟨⟨h1, h2⟩, h3⟩, h4⟩, h5⟩, _⟩, _⟩ := hp
  exact absurd ⟨h1, h2, h3, h4, h5⟩ (h d hd)

/-- The duplicate probe fires when the store holds a key-identical record
whose occurrence date lies in the trailing window. -/
theorem isDup_eq_true_of_mem (uid item : String) (amount : ℚ) (category ty : String)
    (now : Int) (s : Store) (d : Tx) (hd : d ∈ s)
    (h1 : d.userId = uid) (h2 : d.item = item) (h3 : d.amount = amount)
    (h4 : d.category = category) (h5 : d.type = ty)
    (hlo : now - 5 * 60 * 1000 ≤ d.date) (hhi : d.date ≤ now) :
    isDup uid item amount category ty now s = true := by
  rw [isDup, List.any_eq_true]
  refine ⟨d, hd, ?_⟩
  simp only [Bool.and_eq_true, beq_iff_eq, decide_eq_true_eq]
  exact ⟨⟨⟨⟨⟨⟨h1, h2⟩, h3⟩, h4⟩, h5⟩, by omega⟩, by omega⟩

/-- Amounts of documents persisted by the loop are never zero, given the
validation filter has let only truthy candidates through. -/
theorem foldl_createStep_saved_amount (uid : String) (now : Int) :
    ∀ (l : List TransactionData) (st : CreateState),
    (∀ t ∈ l, validTx t = true) → (∀ d ∈ st.saved, d.amount ≠ 0) →
    ∀ d ∈ (l.foldl (createStep uid now) st).saved, d.amount ≠ 0 := by
  intro l
  induction l with
  | nil => intro st _ hst; simpa using hst
  | cons t ts ih =>
    intro st hl hst
    simp only [List.foldl_cons]
    apply ih
    · intro x hx; exact hl x (List.mem_cons_of_mem _ hx)
    · have hv := hl t (List.mem_cons_self t ts)
      have hamt : t.amount ≠ 0 := by
        simp only [validTx, Bool.and_eq_true, decide_eq_true_eq] at hv
        exact hv.1.1.2
      intro d hd
      rw [createStep] at hd
      by_cases hdup : isDup uid t.item t.amount t.category t.type now st.store
      · rw [if_pos hdup] at hd; exact hst d hd
      · rw [if_neg hdup] at hd
        simp only [List.mem_append, List.mem_singleton] at hd
        rcases hd with hd | hd
        · exact hst d hd
        · rw [hd]; exact hamt

/-! ## Claims about `createTransactions` (C1, C3) -/

/-- C1, counterexample.  A candidate with an explicit past occurrence date
(`date = 0`), first persisted at wall-clock `1000000`, is resubmitted one
minute later (well within 5 minutes): the duplicate probe compares the
*occurrence date* of the existing record against the trailing wall-clock
window, finds nothing, reports no duplicate, and persists the resubmission —
contradicting the claim that every key-identical resubmission within
5 minutes is reported as a duplicate and not persisted. -/
theorem createTransactions_pastDate_resubmission_persisted :
    (createTransactions "u" [⟨"lunch", 150, "Food", "expense", some 0⟩] 1000000 [] 0).duplicates
        = []
    ∧ (createTransactions "u" [⟨"lunch", 150, "Food", "expense", some 0⟩] 1060000
        (createTransactions "u" [⟨"lunch", 150, "Food", "expense", some 0⟩] 1000000 [] 0).store
        1).duplicates = []
    ∧ (createTransactions "u" [⟨"lunch", 150, "Food", "expense", some 0⟩] 1060000
        (createTransactions "u" [⟨"lunch", 150, "Food", "expense", some 0⟩] 1000000 [] 0).store
        1).saved.length = 1 := by
  decide

/-- C1, amended.  For a valid candidate whose occurrence date equals the
first submission's wall clock `T`, submitted to an owner store holding no
key-identical record: the first call persists it; a key-identical
resubmission at any `T'` with `T ≤ T' ≤ T + 5` minutes is reported in the
duplicates list (by label and amount) and not persisted; a resubmission at
`T + 5` minutes `+ 1` second is persisted. -/
theorem createTransactions_duplicate_window (uid : String) (t : TransactionData)
    (s0 : Store) (T : Int) (nid nid' : Nat)
    (hvalid : validTx t = true) (hdate : t.date = some T)
    (hfresh : ∀ d ∈ s0, ¬(d.userId = uid ∧ d.item = t.item ∧ d.amount = t.amount ∧
        d.category = t.category ∧ d.type = t.type)) :
    createTransactions uid [t] T s0 nid =
      ⟨s0 ++ [mkDoc uid t T nid], [mkDoc uid t T nid], [], nid + 1⟩
    ∧ (∀ T', T ≤ T' → T' ≤ T + 5 * 60 * 1000 →
        createTransactions uid [t] T' (s0 ++ [mkDoc uid t T nid]) nid' =
          ⟨s0 ++ [mkDoc uid t T nid], [], [(t.item, t.amount)], nid'⟩)
    ∧ createTransactions uid [t] (T + 5 * 60 * 1000 + 1000)
        (s0 ++ [mkDoc uid t T nid]) nid' =
      ⟨s0 ++ [mkDoc uid t T nid] ++ [mkDoc uid t (T + 5 * 60 * 1000 + 1000) nid'],
       [mkDoc uid t (T + 5 * 60 * 1000 + 1000) nid'], [], nid' + 1⟩ := by
  have hdoc_date : (mkDoc uid t T nid).date = T := by simp [mkDoc, hdate]
  have hfresh' : ∀ (now : Int), isDup uid t.item t.amount t.category t.type now s0 = false :=
    fun now => isDup_eq_false_of_fresh _ _ _ _ _ _ _ hfresh
  refine ⟨?_, ?_, ?_⟩
  · have h1 : isDup uid t.item t.amount t.category t.type T s0 = false := hfresh' T
    simp [createTransactions, createStep, hvalid, h1]
  · intro T' h1 h2
    have hdup : isDup uid t.item t.amount t.category t.type T'
        (s0 ++ [mkDoc uid t T nid]) = true := by
      refine isDup_eq_true_of_mem _ _ _ _ _ _ _ (mkDoc uid t T nid)
        (by simp) rfl rfl rfl rfl rfl ?_ ?_
      · rw [hdoc_date]; omega
      · rw [hdoc_date]; exact h1
    simp [createTransactions, createStep, hvalid, hdup]
  · have hnd : isDup uid t.item t.amount t.category t.type (T + 5 * 60 * 1000 + 1000)
        (s0 ++ [mkDoc uid t T nid]) = false := by
      rw [isDup, List.any_eq_false]
      intro d hd
      simp only [List.mem_append, List.mem_singleton] at hd
      rcases hd with hd | hd
      · have hs0 := hfresh' (T + 5 * 60 * 1000 + 1000)
        rw [isDup, List.any_eq_false] at hs0
        exact hs0 d hd
      · subst hd
        simp only [Bool.and_eq_true, beq_iff_eq, decide_eq_true_eq]
        intro hp
        obtain ⟨⟨_, hlo⟩, _⟩ := hp
        rw [hdoc_date] at hlo
        omega
    norm_num only at hnd
    simp [createTransactions, createStep, hvalid, hnd]

/-- C1, witness for the amended theorem at a concrete input: item "lunch",
amount 150, occurrence date = first wall clock 1000000; the resubmission one
minute later is reported as a duplicate. -/
theorem createTransactions_duplicate_window_witness :
    validTx ⟨"lunch", 150, "Food", "expense", some 1000000⟩ = true
    ∧ createTransactions "u" [⟨"lunch", 150, "Food", "expense", some 1000000⟩] 1060000
        ([] ++ [mkDoc "u" ⟨"lunch", 150, "Food", "expense", some 1000000⟩ 1000000 0]) 1 =
        ⟨[] ++ [mkDoc "u" ⟨"lunch", 150, "Food", "expense", some 1000000⟩ 1000000 0],
         [], [("lunch", 150)], 1⟩ :=
  ⟨by decide,
   (createTransactions_duplicate_window "u" ⟨"lunch", 150, "Food", "expense", some 1000000⟩
      [] 1000000 0 1 (by decide) rfl (by simp)).2.1 1060000 (by decide) (by decide)⟩

/-- C3, counterexample.  The validation filter is JavaScript truthiness: a
candidate with the negative amount `-5` passes it and is persisted (so not
every persisted transaction has `amount > 0`, and a non-positive amount is
not rejected); a candidate with amount `0` is rejected before any store call
but silently dropped — it appears in neither `saved` nor `duplicates`, so it
is not reported back to the caller. -/
theorem createTransactions_negative_amount_persisted :
    ((createTransactions "u" [⟨"x", -5, "Food", "expense", some 0⟩] 0 [] 0).saved.map
        (·.amount)) = [-5]
    ∧ createTransactions "u" [⟨"y", 0, "Food", "expense", some 0⟩] 0 [] 0 =
        ⟨[], [], [], 0⟩ := by
  decide

/-- C3, amended.  Every transaction persisted through `createTransactions`
has a nonzero (not necessarily positive) amount, and a candidate with amount
`0` is rejected before any store call — the result carries no trace of it
(store unchanged, nothing saved, nothing reported). -/
theorem createTransactions_amount_truthiness (uid : String) (txs : List TransactionData)
    (now : Int) (s : Store) (nid : Nat) :
    (∀ d ∈ (createTransactions uid txs now s nid).saved, d.amount ≠ 0)
    ∧ ∀ t : TransactionData, t.amount = 0 →
        createTransactions uid [t] now s nid = ⟨s, [], [], nid⟩ := by
  constructor
  · apply foldl_createStep_saved_amount
    · intro x hx; exact (List.mem_filter.mp hx).2
    · intro d hd; simp at hd
  · intro t ht
    have hv : validTx t = false := by simp [validTx, ht]
    simp [createTransactions, hv]

/-- C3, witness for the amended theorem at a concrete input. -/
theorem createTransactions_amount_truthiness_witness :
    (∀ d ∈ (createTransactions "u" [⟨"x", -5, "Food", "expense", some 0⟩] 0 [] 0).saved,
        d.amount ≠ 0)
    ∧ (⟨"y", 0, "Food", "expense", some 0⟩ : TransactionData).amount = 0
    ∧ createTransactions "u" [⟨"y", 0, "Food", "expense", some 0⟩] 0 [] 0 = ⟨[], [], [], 0⟩ :=
  ⟨(createTransactions_amount_truthiness "u" [⟨"x", -5, "Food", "expense", some 0⟩] 0 [] 0).1,
   by decide,
   (createTransactions_amount_truthiness "u" [⟨"y", 0, "Food", "expense", some 0⟩] 0 [] 0).2
     ⟨"y", 0, "Food", "expense", some 0⟩ rfl⟩

/-! ## Claims about `modifyTransaction` (C2, C4, C5, C6) -/

/-- C2, counterexample.  The resolved target (resolution snapshot `s₁` holds
one record) has disappeared by execution time (execution snapshot `s₂` is
empty): `modifyTransaction` ignores the result of `findByIdAndDelete` and
still returns the deletion success confirmation, not a NotFound outcome. -/
theorem modifyTransaction_delete_vanished_reports_success :
    modifyTransaction "u" ⟨none, none, none, "DELETE", none, none, none⟩
      [⟨"u", "expense", 150, "Food", "lunch", 5, 10, 42⟩] [] =
      (.deleted 5 "lunch" 150 "Food", []) := by
  decide

/-- C2, amended.  A DELETE on a resolved target always returns the success
confirmation built from the resolved record (its date, item, amount and
category), whether or not the record is still present at execution time; the
execution removes exactly the records with the target's id (a no-op when it
already vanished). -/
theorem modifyTransaction_delete_exact (uid : String) (mod : ModificationData)
    (s₁ s₂ : Store) (tx : Tx)
    (hres : resolveTarget uid mod s₁ = .single tx) (hact : mod.action = "DELETE") :
    modifyTransaction uid mod s₁ s₂ =
      (.deleted tx.date tx.item tx.amount tx.category,
       s₂.filter fun d => d.txId != tx.txId)
    ∧ ∀ d ∈ s₂, (d ∈ (modifyTransaction uid mod s₁ s₂).2 ↔ d.txId ≠ tx.txId) := by
  have hm : modifyTransaction uid mod s₁ s₂ =
      (.deleted tx.date tx.item tx.amount tx.category,
       s₂.filter fun d => d.txId != tx.txId) := by
    simp [modifyTransaction, hres, hact]
  refine ⟨hm, ?_⟩
  intro d hd
  rw [hm]
  simp [List.mem_filter, hd]

/-- C2, witness for the amended theorem: with the target still present the
record is removed and the confirmation carries its fields; the hypotheses are
discharged at a concrete resolution. -/
theorem modifyTransaction_delete_exact_witness :
    resolveTarget "u" ⟨none, none, none, "DELETE", none, none, none⟩
        [⟨"u", "expense", 150, "Food", "lunch", 5, 10, 42⟩] =
      .single ⟨"u", "expense", 150, "Food", "lunch", 5, 10, 42⟩
    ∧ modifyTransaction "u" ⟨none, none, none, "DELETE", none, none, none⟩
        [⟨"u", "expense", 150, "Food", "lunch", 5, 10, 42⟩]
        [⟨"u", "expense", 150, "Food", "lunch", 5, 10, 42⟩] =
      (.deleted 5 "lunch" 150 "Food",
       [⟨"u", "expense", 150, "Food", "lunch", 5, 10, 42⟩].filter
         fun d => d.txId != (42 : Nat)) :=
  ⟨by decide,
   (modifyTransaction_delete_exact "u" ⟨none, none, none, "DELETE", none, none, none⟩
      [⟨"u", "expense", 150, "Food", "lunch", 5, 10, 42⟩]
      [⟨"u", "expense", 150, "Food", "lunch", 5, 10, 42⟩]
      ⟨"u", "expense", 150, "Food", "lunch", 5, 10, 42⟩ (by decide) rfl).1⟩

/-- C4.  When `targetItem` is set (a truthy, non-empty string), resolution
goes through the item selector alone: the result of `modifyTransaction` is
unchanged if `targetAmount` is erased from the descriptor, so the amount
selector is never consulted. -/
theorem modifyTransaction_targetItem_priority (uid : String) (mod : ModificationData)
    (s₁ s₂ : Store) (p : String) (hp : mod.targetItem = some p) (hne : p ≠ "") :
    modifyTransaction uid mod s₁ s₂ =
      modifyTransaction uid { mod with targetAmount := none } s₁ s₂ := by
  have ht : truthyS mod.targetItem = true := by simp [truthyS, hp, hne]
  have ht' : truthyS ({ mod with targetAmount := none } : ModificationData).targetItem = true := by
    simpa using ht
  rcases hmatch : itemMatches uid p s₁ with _ | ⟨tx, _ | ⟨tx', rest⟩⟩ <;>
    simp [modifyTransaction, resolveTarget, truthyS, ht, ht', hp, hne, hmatch]

/-- C4, witness: a descriptor with both `targetItem = "coffee"` and
`targetAmount = 80` resolves identically to the descriptor with the amount
selector removed. -/
theorem modifyTransaction_targetItem_priority_witness :
    (⟨some "coffee", some 80, none, "DELETE", none, none, none⟩ :
        ModificationData).targetItem = some "coffee"
    ∧ modifyTransaction "u" ⟨some "coffee", some 80, none, "DELETE", none, none, none⟩
        [⟨"u", "expense", 80, "Food", "coffee A", 5, 11, 43⟩]
        [⟨"u", "expense", 80, "Food", "coffee A", 5, 11, 43⟩] =
      modifyTransaction "u"
        ⟨some "coffee", none, none, "DELETE", none, none, none⟩
        [⟨"u", "expense", 80, "Food", "coffee A", 5, 11, 43⟩]
        [⟨"u", "expense", 80, "Food", "coffee A", 5, 11, 43⟩] :=
  ⟨rfl,
   modifyTransaction_targetItem_priority "u"
     ⟨some "coffee", some 80, none, "DELETE", none, none, none⟩
     [⟨"u", "expense", 80, "Food", "coffee A", 5, 11, 43⟩]
     [⟨"u", "expense", 80, "Food", "coffee A", 5, 11, 43⟩]
     "coffee" rfl (by decide)⟩

/-- C5.  When the content-based selector (item or amount) matches more than
one record, `modifyTransaction` mutates nothing — the post-execution store is
the execution snapshot unchanged — and returns the ambiguous outcome carrying
at most 5 candidates, each described by date, item, amount and category. -/
theorem modifyTransaction_ambiguous_no_mutation (uid : String) (mod : ModificationData)
    (s₁ s₂ : Store) (ml : List Tx)
    (hsel : (∃ p, mod.targetItem = some p ∧ p ≠ "" ∧ ml = itemMatches uid p s₁)
      ∨ (truthyS mod.targetItem = false ∧
         ∃ a, mod.targetAmount = some a ∧ ml = amountMatches uid a s₁))
    (h2 : 2 ≤ ml.length) :
    modifyTransaction uid mod s₁ s₂ =
      (.ambiguous ml.length ((ml.take 5).map fun t => (t.date, t.item, t.amount, t.category)),
       s₂)
    ∧ ((ml.take 5).map fun t => (t.date, t.item, t.amount, t.category)).length ≤ 5 := by
  constructor
  · rcases hsel with ⟨p, hp, hne, hml⟩ | ⟨hfalsy, a, ha, hml⟩
    · have ht : truthyS mod.targetItem = true := by simp [truthyS, hp, hne]
      subst hml
      rcases hmatch : itemMatches uid p s₁ with _ | ⟨tx, _ | ⟨tx', rest⟩⟩ <;>
        rw [hmatch] at h2 <;> simp at h2 <;>
        simp [modifyTransaction, resolveTarget, truthyS, ht, hp, hne, hmatch]
    · have hs : mod.targetAmount.isSome = true := by simp [ha]
      subst hml
      rcases hmatch : amountMatches uid a s₁ with _ | ⟨tx, _ | ⟨tx', rest⟩⟩ <;>
        rw [hmatch] at h2 <;> simp at h2 <;>
        simp [modifyTransaction, resolveTarget, hfalsy, hs, ha, hmatch]
  · calc ((ml.take 5).map fun t => (t.date, t.item, t.amount, t.category)).length
        = (ml.take 5).length := List.length_map _ _
      _ ≤ 5 := by rw [List.length_take]; exact Nat.min_le_left _ _

/-- C5, witness: two records both containing "coffee" (case-insensitively);
the descriptor resolves ambiguously, nothing is deleted, and the two
candidates are returned. -/
theorem modifyTransaction_ambiguous_no_mutation_witness :
    2 ≤ (itemMatches "u" "coffee"
        [⟨"u", "expense", 80, "Food", "coffee A", 5, 11, 43⟩,
         ⟨"u", "expense", 90, "Food", "Coffee B", 6, 12, 44⟩]).length
    ∧ modifyTransaction "u" ⟨some "coffee", none, none, "DELETE", none, none, none⟩
        [⟨"u", "expense", 80, "Food", "coffee A", 5, 11, 43⟩,
         ⟨"u", "expense", 90, "Food", "Coffee B", 6, 12, 44⟩]
        [⟨"u", "expense", 80, "Food", "coffee A", 5, 11, 43⟩,
         ⟨"u", "expense", 90, "Food", "Coffee B", 6, 12, 44⟩] =
      (.ambiguous (itemMatches "u" "coffee"
          [⟨"u", "expense", 80, "Food", "coffee A", 5, 11, 43⟩,
           ⟨"u", "expense", 90, "Food", "Coffee B", 6, 12, 44⟩]).length
        (((itemMatches "u" "coffee"
            [⟨"u", "expense", 80, "Food", "coffee A", 5, 11, 43⟩,
             ⟨"u", "expense", 90, "Food", "Coffee B", 6, 12, 44⟩]).take 5).map
          fun t => (t.date, t.item, t.amount, t.category)),
       [⟨"u", "expense", 80, "Food", "coffee A", 5, 11, 43⟩,
        ⟨"u", "expense", 90, "Food", "Coffee B", 6, 12, 44⟩]) :=
  ⟨by decide,
   (modifyTransaction_ambiguous_no_mutation "u"
      ⟨some "coffee", none, none, "DELETE", none, none, none⟩
      [⟨"u", "expense", 80, "Food", "coffee A", 5, 11, 43⟩,
       ⟨"u", "expense", 90, "Food", "Coffee B", 6, 12, 44⟩]
      [⟨"u", "expense", 80, "Food", "coffee A", 5, 11, 43⟩,
       ⟨"u", "expense", 90, "Food", "Coffee B", 6, 12, 44⟩]
      (itemMatches "u" "coffee"
        [⟨"u", "expense", 80, "Food", "coffee A", 5, 11, 43⟩,
         ⟨"u", "expense", 90, "Food", "Coffee B", 6, 12, 44⟩])
      (Or.inl ⟨"coffee", rfl, by decide, rfl⟩) (by decide)).1⟩

/-- C6.  With neither content selector set, resolution is positional over the
owner's entire history sorted by creation time descending: position
`indexOffset` (default 0) is selected when it exists, the no-match outcome is
returned when the history has fewer than `indexOffset + 1` records, and the
ambiguous outcome is impossible on this path. -/
theorem modifyTransaction_positional_resolution (uid : String) (mod : ModificationData)
    (s₁ s₂ : Store)
    (hitem : truthyS mod.targetItem = false) (hamt : mod.targetAmount = none) :
    ((sortCreatedDesc (s₁.filter fun tx => tx.userId == uid)).length <
        mod.indexOffset.getD 0 + 1 →
      modifyTransaction uid mod s₁ s₂ = (.notFoundIndex, s₂))
    ∧ (∀ h : mod.indexOffset.getD 0 <
          (sortCreatedDesc (s₁.filter fun tx => tx.userId == uid)).length,
        resolveTarget uid mod s₁ =
          .single ((sortCreatedDesc (s₁.filter fun tx => tx.userId == uid)).get
            ⟨mod.indexOffset.getD 0, h⟩))
    ∧ ∀ n cs, (modifyTransaction uid mod s₁ s₂).1 ≠ .ambiguous n cs := by
  have hsome : mod.targetAmount.isSome = false := by simp [hamt]
  have hres : ∀ h : mod.indexOffset.getD 0 <
      (sortCreatedDesc (s₁.filter fun tx => tx.userId == uid)).length,
      resolveTarget uid mod s₁ =
        .single ((sortCreatedDesc (s₁.filter fun tx => tx.userId == uid)).get
          ⟨mod.indexOffset.getD 0, h⟩) := by
    intro h
    have e1 : ((sortCreatedDesc (s₁.filter fun tx => tx.userId == uid)).take
        (mod.indexOffset.getD 0 + 1)).length = mod.indexOffset.getD 0 + 1 := by
      rw [List.length_take]
      omega
    have e2 : ((sortCreatedDesc (s₁.filter fun tx => tx.userId == uid)).take
        (mod.indexOffset.getD 0 + 1))[mod.indexOffset.getD 0]? =
        some ((sortCreatedDesc (s₁.filter fun tx => tx.userId == uid)).get
          ⟨mod.indexOffset.getD 0, h⟩) := by
      rw [List.getElem?_take_of_lt (Nat.lt_succ_self _)]
      exact List.getElem?_eq_getElem h
    simp [resolveTarget, hitem, hsome, e1, e2]
  have hnof : (sortCreatedDesc (s₁.filter fun tx => tx.userId == uid)).length <
      mod.indexOffset.getD 0 + 1 → resolveTarget uid mod s₁ = .noIndex := by
    intro h
    have htake : (sortCreatedDesc (s₁.filter fun tx => tx.userId == uid)).take
        (mod.indexOffset.getD 0 + 1) =
        sortCreatedDesc (s₁.filter fun tx => tx.userId == uid) :=
      List.take_of_length_le (by omega)
    simp [resolveTarget, hitem, hsome, htake, h]
  refine ⟨?_, hres, ?_⟩
  · intro h
    simp [modifyTransaction, hnof h]
  · intro n cs
    rcases Nat.lt_or_ge (sortCreatedDesc (s₁.filter fun tx => tx.userId == uid)).length
        (mod.indexOffset.getD 0 + 1) with hlt | hge
    · simp [modifyTransaction, hnof hlt]
    · have h : mod.indexOffset.getD 0 <
          (sortCreatedDesc (s₁.filter fun tx => tx.userId == uid)).length := by omega
      rw [modifyTransaction, hres h]
      dsimp only
      split
      · simp
      · split <;> simp

/-- C6, witness: an empty descriptor (`indexOffset` defaulted) on a one-record
history resolves to exactly that record (the most recent). -/
theorem modifyTransaction_positional_resolution_witness :
    truthyS (none : Option String) = false
    ∧ resolveTarget "u" ⟨none, none, none, "DELETE", none, none, none⟩
        [⟨"u", "expense", 150, "Food", "lunch", 5, 10, 42⟩] =
      .single ((sortCreatedDesc
          ([⟨"u", "expense", 150, "Food", "lunch", 5, 10, 42⟩].filter
            fun tx => tx.userId == "u")).get ⟨0, by decide⟩) :=
  ⟨rfl,
   (modifyTransaction_positional_resolution "u"
      ⟨none, none, none, "DELETE", none, none, none⟩
      [⟨"u", "expense", 150, "Food", "lunch", 5, 10, 42⟩] [] rfl rfl).2.1 (by decide)⟩

/-! ## Claim about `bulkDeleteTransactions` (C9) -/

/-- C9.  A bulk delete with either boundary missing mutates nothing and
returns the range-validation outcome, which is distinct from the zero-count
outcome and from any count report; with both boundaries present it deletes
exactly the owner's records with occurrence date in `[start, end]` inclusive
and reports the count, zero counts by their own distinct outcome. -/
theorem bulkDeleteTransactions_range_guard (uid : String) (q : QueryData) (s : Store) :
    ((q.startDate = none ∨ q.endDate = none) →
      bulkDeleteTransactions uid q s = (.missingRange, s))
    ∧ (∀ a b, q.startDate = some a → q.endDate = some b →
        (bulkDeleteTransactions uid q s).2 =
          s.filter (fun tx =>
            !(tx.userId == uid && decide (a ≤ tx.date) && decide (tx.date ≤ b)))
        ∧ ((s.filter fun tx =>
              tx.userId == uid && decide (a ≤ tx.date) && decide (tx.date ≤ b)).length = 0 →
            (bulkDeleteTransactions uid q s).1 = .emptyRange)
        ∧ (∀ n, (s.filter fun tx =>
              tx.userId == uid && decide (a ≤ tx.date) && decide (tx.date ≤ b)).length = n →
            0 < n → (bulkDeleteTransactions uid q s).1 = .deletedCount n a b))
    ∧ (BulkDeleteResult.missingRange ≠ .emptyRange
        ∧ ∀ n a b, BulkDeleteResult.missingRange ≠ .deletedCount n a b) := by
  refine ⟨?_, ?_, by simp, by simp⟩
  · intro h
    have hc : (q.startDate.isNone || q.endDate.isNone) = true := by
      rcases h with h | h <;> simp [h]
    simp [bulkDeleteTransactions, hc]
  · intro a b ha hb
    have hc : (q.startDate.isNone || q.endDate.isNone) = false := by simp [ha, hb]
    refine ⟨?_, ?_, ?_⟩
    · simp only [bulkDeleteTransactions, ha, hb, Option.isNone_some, Bool.or_self,
        Bool.false_eq_true, if_false, Option.getD_some]
      split <;> rfl
    · intro h0
      simp [bulkDeleteTransactions, ha, hb, h0]
    · intro n hn hpos
      simp only [bulkDeleteTransactions, ha, hb, Option.isNone_some, Bool.or_self,
        Bool.false_eq_true, if_false, Option.getD_some, hn]
      rw [if_neg (by simp; omega)]

/-- C9, witness: a request with `startDate` missing deletes nothing and
returns the validation outcome; a fully-bounded request over the same store
deletes the two in-range records and reports the count 2. -/
theorem bulkDeleteTransactions_range_guard_witness :
    bulkDeleteTransactions "u" ⟨none, some 10, none⟩
        [⟨"u", "expense", 10, "Food", "a", 1, 1, 1⟩,
         ⟨"u", "expense", 7, "Transport", "c", 3, 3, 3⟩] =
      (.missingRange,
       [⟨"u", "expense", 10, "Food", "a", 1, 1, 1⟩,
        ⟨"u", "expense", 7, "Transport", "c", 3, 3, 3⟩])
    ∧ (bulkDeleteTransactions "u" ⟨some 0, some 2, none⟩
        [⟨"u", "expense", 10, "Food", "a", 1, 1, 1⟩,
         ⟨"u", "expense", 7, "Transport", "c", 3, 3, 3⟩]).1 = .deletedCount 1 0 2 :=
  ⟨(bulkDeleteTransactions_range_guard "u" ⟨none, some 10, none⟩
      [⟨"u", "expense", 10, "Food", "a", 1, 1, 1⟩,
       ⟨"u", "expense", 7, "Transport", "c", 3, 3, 3⟩]).1 (Or.inl rfl),
   ((bulkDeleteTransactions_range_guard "u" ⟨some 0, some 2, none⟩
      [⟨"u", "expense", 10, "Food", "a", 1, 1, 1⟩,
       ⟨"u", "expense", 7, "Transport", "c", 3, 3, 3⟩]).2.1 0 2 rfl rfl).2.2 1
     (by decide) (by decide)⟩

/-! ## Supporting lemmas for the aggregation pipelines -/

/-- Membership in the grouped key list is membership in the key list. -/
theorem firstKeys_mem (l : List String) (x : String) : x ∈ firstKeys l ↔ x ∈ l := by
  induction l using firstKeys.induct with
  | case1 => simp [firstKeys]
  | case2 k t ih =>
    rw [firstKeys]
    simp only [List.mem_cons, ih, List.mem_filter, bne_iff_ne, ne_eq, decide_eq_true_eq]
    constructor
    · rintro (rfl | ⟨hx, _⟩)
      · exact Or.inl rfl
      · exact Or.inr hx
    · rintro (rfl | hx)
      · exact Or.inl rfl
      · by_cases hxk : x = k
        · exact Or.inl hxk
        · exact Or.inr ⟨hx, by simpa using hxk⟩

/-- Splitting a mapped sum along a boolean filter. -/
theorem sum_map_filter_add (p : Tx → Bool) (v : Tx → ℚ) (l : List Tx) :
    ((l.filter p).map v).sum + ((l.filter fun x => !(p x)).map v).sum = (l.map v).sum := by
  induction l with
  | nil => simp
  | cons a t ih =>
    by_cases hp : p a
    · rw [List.filter_cons_of_pos hp, List.filter_cons_of_neg (by simp [hp])]
      simp only [List.map_cons, List.sum_cons]
      rw [add_assoc, ih]
    · rw [List.filter_cons_of_neg (by simp [hp]), List.filter_cons_of_pos (by simp [hp])]
      simp only [List.map_cons, List.sum_cons]
      rw [add_left_comm, ih]

/-- Fuelled form of `sum_over_groups`, by strong induction on the length. -/
theorem sum_over_groups_aux (key : Tx → String) (v : Tx → ℚ) :
    ∀ (n : Nat) (l : List Tx), l.length ≤ n →
    ((firstKeys (l.map key)).map fun k => ((l.filter fun x => key x == k).map v).sum).sum
      = (l.map v).sum := by
  intro n
  induction n with
  | zero =>
    intro l hl
    have hnil : l = [] := List.length_eq_zero.mp (Nat.le_zero.mp hl)
    subst hnil
    simp [firstKeys]
  | succ n ih =>
    intro l hl
    match l with
    | [] => simp [firstKeys]
    | a :: t =>
      have hlt : (t.filter fun x => key x != key a).length ≤ n := by
        have := List.length_filter_le (fun x => key x != key a) t
        simp only [List.length_cons] at hl
        omega
      have hA : ((t.map key).filter fun x => x != key a) =
          (t.filter fun x => key x != key a).map key := by
        rw [List.filter_map]
        rfl
      rw [List.map_cons, firstKeys, hA, List.map_cons, List.sum_cons]
      have hhead : (((a :: t).filter fun x => key x == key a).map v).sum =
          v a + ((t.filter fun x => key x == key a).map v).sum := by
        rw [List.filter_cons_of_pos (by simp), List.map_cons, List.sum_cons]
      have htail : ((firstKeys ((t.filter fun x => key x != key a).map key)).map
            fun k => (((a :: t).filter fun x => key x == k).map v).sum) =
          (firstKeys ((t.filter fun x => key x != key a).map key)).map
            fun k => ((((t.filter fun x => key x != key a).filter
              fun x => key x == k).map v).sum) := by
        apply List.map_congr_left
        intro k hk
        have hk' : k ≠ key a := by
          rw [firstKeys_mem] at hk
          obtain ⟨x, hx, hxe⟩ := List.mem_map.mp hk
          have hne := (List.mem_filter.mp hx).2
          rw [bne_iff_ne] at hne
          rw [← hxe]
          exact hne
        rw [List.filter_cons_of_neg (by simp [Ne.symm hk']), List.filter_filter]
        congr 1
        congr 1
        apply List.filter_congr
        intro x _
        by_cases hxk : key x = k
        · simp [hxk, hk']
        · simp [hxk]
      rw [htail, hhead, ih (t.filter fun x => key x != key a) hlt]
      have hpart := sum_map_filter_add (fun x => key x == key a) v t
      have hbne : (t.filter fun x => key x != key a) =
          (t.filter fun x => !(key x == key a)) := rfl
      rw [hbne, add_assoc, hpart, List.map_cons, List.sum_cons]

/-- The totals of a `$group` stage sum to the sum over the grouped records. -/
theorem sum_over_groups (key : Tx → String) (v : Tx → ℚ) (l : List Tx) :
    ((firstKeys (l.map key)).map fun k => ((l.filter fun x => key x == k).map v).sum).sum
      = (l.map v).sum :=
  sum_over_groups_aux key v l.length l le_rfl

/-- Reading one key's value out of keyed pairs with a `forEach`-style fold:
the last (here: only) matching entry wins, the initial value survives when no
key matches. -/
theorem foldl_lookup {β γ : Type} (c : String) (f : β → γ) (g : String → β)
    (keys : List String) (init : γ) :
    ((keys.map fun k => (k, g k)).foldl
        (fun acc t => if t.1 == c then f t.2 else acc) init) =
      if c ∈ keys then f (g c) else init := by
  induction keys generalizing init with
  | nil => simp
  | cons k t ih =>
    rw [List.map_cons, List.foldl_cons, ih]
    by_cases hkc : k = c
    · subst hkc
      simp
    · have hck : ¬ c = k := fun h => hkc h.symm
      simp [hkc, hck]

/-- `foldl_lookup` specialised to reading the `total` component of a
`groupTypes` entry. -/
theorem foldl_lookup_fst (c : String) (g : String → ℚ × Nat)
    (keys : List String) (init : ℚ) :
    ((keys.map fun k => (k, g k)).foldl
        (fun acc t => if t.1 == c then t.2.1 else acc) init) =
      if c ∈ keys then (g c).1 else init :=
  foldl_lookup c Prod.fst g keys init

/-! ## Claims about the stats aggregations (C7, C10) -/

/-- C7.  For every owner, date range and optional category filter, the
`breakdown` totals of `getTransactionStats` sum to exactly `totalExpense`:
both are computed from the same filtered snapshot, the former by grouping its
expense records by category, the latter by the type grouping's expense
entry. -/
theorem getTransactionStats_breakdown_sums_to_totalExpense
    (uid : String) (q : QueryData) (s : Store) :
    ((getTransactionStats uid q s).breakdown.map (·.2)).sum =
      (getTransactionStats uid q s).totalExpense := by
  simp only [getTransactionStats]
  have hsort : ∀ l : List (String × ℚ), ((sortTotalDesc l).map (·.2)).sum =
      (l.map (·.2)).sum :=
    fun l => ((List.perm_insertionSort _ l).map (·.2)).sum_eq
  rw [hsort]
  have hgc : ∀ l : List Tx, ((groupCats l).map (·.2)).sum = (l.map (·.amount)).sum := by
    intro l
    rw [groupCats, List.map_map]
    exact sum_over_groups (fun x => x.category) (fun x => x.amount) l
  rw [hgc, groupTypes, foldl_lookup_fst]
  by_cases hmem : "expense" ∈ firstKeys ((s.filter (matchesQuery uid q)).map (·.type))
  · rw [if_pos hmem]
  · rw [if_neg hmem]
    have hnil : (s.filter (matchesQuery uid q)).filter (fun tx => tx.type == "expense")
        = [] := by
      rw [List.filter_eq_nil_iff]
      intro x hx hpx
      rw [firstKeys_mem] at hmem
      exact absurd (List.mem_map.mpr ⟨x, hx, by simpa using hpx⟩) hmem
    rw [hnil]
    simp

/-- C10.  The optimised single-`$facet` `getTransactionStats` returns exactly
the same `StatsResult` (totals, descending breakdown, count) as the earlier
two-aggregation implementation, on every owner, query and store: the facet's
inner expense re-match over the matched snapshot coincides with the
two-aggregation version's combined match. -/
theorem getTransactionStats_facet_eq_twoStage (uid : String) (q : QueryData) (s : Store) :
    getTransactionStats uid q s = getTransactionStatsTwoStage uid q s := by
  simp only [getTransactionStats, getTransactionStatsTwoStage]
  have hb : (s.filter (matchesQuery uid q)).filter (fun tx => tx.type == "expense") =
      s.filter (fun tx => matchesQuery uid q tx && tx.type == "expense") := by
    rw [List.filter_filter]
    apply List.filter_congr
    intro x _
    rw [Bool.and_comm]
  rw [hb]

/-! ## Claim about `checkBudgetAlert` (C8) -/

/-- Classification of the alert-loop threshold test for a positive limit:
an "exceeded" alert exactly when spend/limit is at least 100%, an
"approaching" alert exactly when it is in [80%, 100%), and no alert exactly
when it is below 80%. -/
theorem alertFor_classification (spent : ℚ) (b : Budget) (hpos : 0 < b.amount) :
    (alertFor spent b = some (.exceeded b.category (spent / b.amount * 100)) ↔
      b.amount ≤ spent)
    ∧ (alertFor spent b = some (.approaching b.category (spent / b.amount * 100)) ↔
      4/5 * b.amount ≤ spent ∧ spent < b.amount)
    ∧ (alertFor spent b = none ↔ spent < 4/5 * b.amount) := by
  have h100 : ((100 : ℚ) ≤ spent / b.amount * 100) ↔ b.amount ≤ spent := by
    rw [div_mul_eq_mul_div, le_div_iff₀ hpos]
    constructor
    · intro h; nlinarith
    · intro h; nlinarith
  have h80 : ((80 : ℚ) ≤ spent / b.amount * 100) ↔ 4/5 * b.amount ≤ spent := by
    rw [div_mul_eq_mul_div, le_div_iff₀ hpos]
    constructor
    · intro h; nlinarith
    · intro h; nlinarith
  rw [alertFor]
  by_cases hc1 : (100 : ℚ) ≤ spent / b.amount * 100
  · rw [if_pos hc1]
    refine ⟨iff_of_true rfl (h100.mp hc1), ?_, ?_⟩
    · exact iff_of_false (by simp) fun h => absurd (h100.mp hc1) (not_le.mpr h.2)
    · exact iff_of_false (by simp)
        (fun h => absurd (h100.mp hc1) (not_le.mpr (by nlinarith)))
  · rw [if_neg hc1]
    by_cases hc2 : (80 : ℚ) ≤ spent / b.amount * 100
    · rw [if_pos hc2]
      refine ⟨?_, ?_, ?_⟩
      · exact iff_of_false (by simp) fun h => absurd (h100.mpr h) hc1
      · exact iff_of_true rfl ⟨h80.mp hc2, not_le.mp fun h => hc1 (h100.mpr h)⟩
      · exact iff_of_false (by simp) (not_lt.mpr (h80.mp hc2))
    · rw [if_neg hc2]
      refine ⟨?_, ?_, ?_⟩
      · exact iff_of_false (by simp) fun h => absurd (h100.mpr h) hc1
      · exact iff_of_false (by simp) fun h => absurd (h80.mpr h.1) hc2
      · exact iff_of_true rfl (not_le.mp fun h => hc2 (h80.mpr h))

/-- C8.  `checkBudgetAlert` evaluates every fetched budget — the affected
category's and the `"Total"` one when set — against current-month spend:
given positive limits, the result is `none` (never an empty message list)
exactly when every fetched budget sits below 80% of its limit; a budget
produces the "exceeded" alert exactly when spend/limit ≥ 100% and the
"approaching" alert exactly when 80% ≤ spend/limit < 100%; when any alerts
fire they are returned as the message list. -/
theorem checkBudgetAlert_thresholds (uid category : String) (budgets : List Budget)
    (txs : Store) (som : Int)
    (hpos : ∀ b ∈ fetchedBudgets uid category budgets, 0 < b.amount) :
    (checkBudgetAlert uid category budgets txs som = none ↔
      ∀ b ∈ fetchedBudgets uid category budgets,
        spentFor uid category txs som b < 4/5 * b.amount)
    ∧ (∀ b ∈ fetchedBudgets uid category budgets,
        (alertFor (spentFor uid category txs som b) b =
            some (.exceeded b.category (spentFor uid category txs som b / b.amount * 100)) ↔
          b.amount ≤ spentFor uid category txs som b)
        ∧ (alertFor (spentFor uid category txs som b) b =
            some (.approaching b.category
              (spentFor uid category txs som b / b.amount * 100)) ↔
          4/5 * b.amount ≤ spentFor uid category txs som b ∧
            spentFor uid category txs som b < b.amount))
    ∧ (fetchedBudgets uid category budgets ≠ [] →
        checkBudgetAlert uid category budgets txs som =
          if ((fetchedBudgets uid category budgets).filterMap
              fun b => alertFor (spentFor uid category txs som b) b) = [] then none
          else some ((fetchedBudgets uid category budgets).filterMap
              fun b => alertFor (spentFor uid category txs som b) b))
    ∧ checkBudgetAlert uid category budgets txs som ≠ some [] := by
  refine ⟨?_, ?_, ?_, ?_⟩
  · rw [checkBudgetAlert]
    by_cases hbs : (fetchedBudgets uid category budgets).isEmpty
    · rw [if_pos hbs]
      have hnil := List.isEmpty_iff.mp hbs
      simp [hnil]
    · rw [if_neg hbs]
      by_cases hal : ((fetchedBudgets uid category budgets).filterMap
          fun b => alertFor (spentFor uid category txs som b) b).isEmpty
      · rw [if_pos hal]
        refine iff_of_true rfl ?_
        intro b hb
        have hnone : alertFor (spentFor uid category txs som b) b = none :=
          (List.filterMap_eq_nil_iff.mp (List.isEmpty_iff.mp hal)) b hb
        exact ((alertFor_classification _ b (hpos b hb)).2.2).mp hnone
      · rw [if_neg hal]
        refine iff_of_false (by simp) ?_
        intro hall
        apply hal
        rw [List.isEmpty_iff, List.filterMap_eq_nil_iff]
        intro b hb
        exact ((alertFor_classification _ b (hpos b hb)).2.2).mpr (hall b hb)
  · intro b hb
    exact ⟨(alertFor_classification _ b (hpos b hb)).1,
           (alertFor_classification _ b (hpos b hb)).2.1⟩
  · intro hne
    rw [checkBudgetAlert, if_neg (by rw [List.isEmpty_iff]; exact hne)]
    by_cases hal : ((fetchedBudgets uid category budgets).filterMap
        fun b => alertFor (spentFor uid category txs som b) b) = []
    · rw [if_pos (by rw [List.isEmpty_iff]; exact hal), if_pos hal]
    · rw [if_neg (by rw [List.isEmpty_iff]; exact hal), if_neg hal]
  · rw [checkBudgetAlert]
    by_cases hbs : (fetchedBudgets uid category budgets).isEmpty
    · rw [if_pos hbs]
      simp
    · rw [if_neg hbs]
      by_cases hal : ((fetchedBudgets uid category budgets).filterMap
          fun b => alertFor (spentFor uid category txs som b) b).isEmpty
      · rw [if_pos hal]
        simp
      · rw [if_neg hal]
        intro h
        apply hal
        rw [List.isEmpty_iff]
        exact Option.some_injective _ h

/-- C8, witness: a Food budget of 1000 and a Total budget of 2000, with 850
spent on Food this month — the hypotheses are discharged at this input and
the threshold characterisation applies (here spend is 85% of the Food limit,
so the result is not `none`). -/
theorem checkBudgetAlert_thresholds_witness :
    (∀ b ∈ fetchedBudgets "u" "Food" [⟨"u", "Food", 1000⟩, ⟨"u", "Total", 2000⟩],
        0 < b.amount)
    ∧ (checkBudgetAlert "u" "Food" [⟨"u", "Food", 1000⟩, ⟨"u", "Total", 2000⟩]
        [⟨"u", "expense", 850, "Food", "x", 5, 5, 1⟩] 0 = none ↔
      ∀ b ∈ fetchedBudgets "u" "Food" [⟨"u", "Food", 1000⟩, ⟨"u", "Total", 2000⟩],
        spentFor "u" "Food" [⟨"u", "expense", 850, "Food", "x", 5, 5, 1⟩] 0 b <
          4/5 * b.amount) :=
  ⟨by decide,
   (checkBudgetAlert_thresholds "u" "Food" [⟨"u", "Food", 1000⟩, ⟨"u", "Total", 2000⟩]
      [⟨"u", "expense", 850, "Food", "x", 5, 5, 1⟩] 0 (by decide)).1⟩
